import Mathlib

set_option linter.unusedVariables false

namespace GoMlog

/-- Subset of the operator and assignment tokens of the host language's token package
that the transpiler sources inspect (comparison operators, assignment tokens, and the
increment and decrement tokens). -/
inductive Token where
  | ASSIGN
  | DEFINE
  | ADD_ASSIGN
  | INC
  | DEC
  | LSS
  | GTR
  | LEQ
  | GEQ
  | EQL
  | NEQ
  | LAND
deriving DecidableEq, Repr

/-- Subset of the host language's expression AST that statement lowering inspects:
literals, bare identifiers, binary expressions, and (as a representative of every
other expression shape) index expressions. -/
inductive Expr where
  | BasicLit (value : String)
  | Ident (name : String)
  | BinaryExpr (x : Expr) (op : Token) (y : Expr)
  | IndexExpr (x : Expr) (index : Expr)
deriving DecidableEq, Repr

/-- Subset of the host language's statement AST that statement lowering inspects.
An absent clause (a nil interface value in the source) is modelled as a missing
optional value handed to the lowering function. The constructor for go statements
stands in for every statement kind outside the supported set. -/
inductive Stmt where
  | ForStmt (init : Option Stmt) (cond : Option Expr) (post : Option Stmt) (body : List Stmt)
  | ExprStmt (x : Expr)
  | IfStmt (init : Option Stmt) (cond : Expr) (body : List Stmt) (els : Option Stmt)
  | AssignStmt (lhs : List Expr) (tok : Token) (rhs : List Expr)
  | ReturnStmt (results : List Expr)
  | BlockStmt (list : List Stmt)
  | IncDecStmt (x : Expr) (tok : Token)
  | GoStmt (call : Expr)

/-- Instruction operand (the source's Resolvable interface): a literal value, a named
source-level variable, or a compiler-generated temporary. -/
inductive Resolvable where
  | Value (value : String)
  | NormalVariable (name : String)
  | DynamicVariable
deriving DecidableEq, Repr

/-- Instruction model of the target language: a plain instruction (comment plus a list
of operand rows), a jump instruction (comment, condition operands, symbolic target), and
the trampoline-back marker emitted by return statements. The source stores a jump's
target behind an interface; the two concrete target shapes the sources build are
flattened into two jump constructors: a jump whose target is another instruction used
directly (resolving to that instruction's address), and a jump whose target is a
statement-jump-target wrapper carrying an after-flag and the referenced instruction
(resolving to the referenced instruction's address, or one past it when the flag is
set). -/
inductive MLOGStatement where
  | MLOG (comment : String) (statement : List (List Resolvable))
  | MLOGJump (comment : String) (condition : List Resolvable) (target : MLOGStatement)
  | MLOGJumpTo (comment : String) (condition : List Resolvable) (after : Bool) (target : MLOGStatement)
  | MLOGTrampolineBack
deriving DecidableEq, Repr

/-- Lowering failure: either an error value returned by the transpiler, or a runtime
panic of the host language (an unchecked type assertion or an out-of-range index). -/
inductive LowerError where
  | err (msg : String)
  | runtimePanic (msg : String)
deriving DecidableEq, Repr

/-- Rendering options recognised by the transpiler: number each output row with its
address, and append each instruction's comment. -/
structure Options where
  Numbers : Bool
  Comments : Bool
deriving DecidableEq, Repr

/-- Modelled from the spec: the fixed operator-to-jump-condition table (it is referenced
by the statement-lowering source but defined outside the provided files). It maps the
supported comparison operators to the target machine's comparison-condition tokens;
every other operator is absent from the table. -/
def jumpOperators : Token → Option String
  | .EQL => some "equal"
  | .NEQ => some "notEqual"
  | .LSS => some "lessThan"
  | .LEQ => some "lessThanEq"
  | .GTR => some "greaterThan"
  | .GEQ => some "greaterThanEq"
  | _ => none

/-- Modelled from the spec: the canonical return-value slot written by return
statements (the constant is defined outside the provided files). -/
def FunctionReturnVariable : String := "@return"

/-- Modelled from the spec: expression lowering is an external collaborator defined
outside the provided files. Per the spec's contract it receives destination operands
and an expression and returns an instruction list or an error; a literal or a named
variable with a single destination lowers to one set instruction writing the value
into the destination. Expression shapes beyond those are not needed by the claims and
are modelled as lowering errors. -/
def expressionToMLOG (dest : List Resolvable) (expr : Expr) (options : Options) :
    Except LowerError (List MLOGStatement) :=
  match dest, expr with
  | [d], .BasicLit v => .ok [.MLOG "Set the variable to the value" [[.Value "set", d, .Value v]]]
  | [d], .Ident n =>
      .ok [.MLOG "Set the variable to the value" [[.Value "set", d, .NormalVariable n]]]
  | _, _ => .error (.err "unsupported expression")

/-- Translation of one side of a for-loop condition (statement.go lines 35-49): a basic
literal becomes a value operand, a bare identifier becomes a normal variable, and any
other expression shape is a lowering error carrying the given message. -/
def condOperand (e : Expr) (errMsg : String) : Except LowerError Resolvable :=
  match e with
  | .BasicLit v => .ok (.Value v)
  | .Ident n => .ok (.NormalVariable n)
  | _ => .error (.err errMsg)

/-- Translation of a for-loop condition into the backward jump's condition operands
(statement.go lines 29-67): the condition must be a binary expression whose operator is
in the jump-operator table; its operands are translated by condOperand. An absent or
non-binary condition is a lowering error. -/
def forCondCondition (cond : Option Expr) : Except LowerError (List Resolvable) :=
  match cond with
  | some (.BinaryExpr x op y) =>
    match jumpOperators op with
    | some translatedOp =>
      match condOperand x "unknown left side expression type" with
      | .error e => .error e
      | .ok leftSide =>
        match condOperand y "unknown right side expression type" with
        | .error e => .error e
        | .ok rightSide => .ok [.Value translatedOp, leftSide, rightSide]
    | none => .error (.err "jump statement cannot use this operation")
  | _ => .error (.err "for loop can only have binary conditional expressions")

/-- Translation of an if-condition (statement.go lines 107-119): a bare identifier is
used directly as the boolean operand with no instructions emitted; any other condition
is lowered through expression lowering into a fresh temporary, which then serves as the
boolean operand. -/
def lowerIfCond (cond : Expr) (options : Options) :
    Except LowerError (List MLOGStatement × Resolvable) :=
  match cond with
  | .Ident n => .ok ([], .NormalVariable n)
  | c =>
    match expressionToMLOG [.DynamicVariable] c options with
    | .error e => .error e
    | .ok instructions => .ok (instructions, .DynamicVariable)

/-- Collection of the destinations of an N-to-1 assignment (statement.go lines
274-278): the source performs an unchecked type assertion on every destination, so a
destination that is not a bare identifier is a runtime panic, not a returned error. -/
def lhsToResolvables : List Expr → Except LowerError (List Resolvable)
  | [] => .ok []
  | .Ident n :: rest =>
    match lhsToResolvables rest with
    | .error e => .error e
    | .ok others => .ok (Resolvable.NormalVariable n :: others)
  | _ :: _ => .error (.runtimePanic "interface conversion: the assignment target is not an identifier")

/-- Lowering of the destination/source pairs of an N-to-N assignment (statement.go
lines 289-303): each destination must be a bare identifier and the token must be plain
assignment or declaration-assignment; each pair is lowered independently through
expression lowering. -/
def assignPairs : List (Expr × Expr) → Token → Options → Except LowerError (List MLOGStatement)
  | [], _, _ => .ok []
  | (lhsExpr, rhsExpr) :: rest, tok, options =>
    match lhsExpr with
    | .Ident n =>
      if tok ≠ .ASSIGN ∧ tok ≠ .DEFINE then .error (.err "only direct assignment is supported")
      else
        match expressionToMLOG [.NormalVariable n] rhsExpr options with
        | .error e => .error e
        | .ok instructions =>
          match assignPairs rest tok options with
          | .error e => .error e
          | .ok restInstructions => .ok (instructions ++ restInstructions)
    | _ => .error (.err "left side variable assignment can only contain identifications")

/-- Lowering of an assignment statement (statement.go assignStmtToMLOG): with unequal
destination and source counts, exactly one source selects the N-to-1 shape (collect the
destinations and make a single expression-lowering call) and anything else is a
mismatched-sides error; with equal counts, each destination/source pair is lowered
independently. -/
def assignStmtToMLOG (lhs : List Expr) (tok : Token) (rhs : List Expr) (options : Options) :
    Except LowerError (List MLOGStatement) :=
  if lhs.length ≠ rhs.length then
    match rhs with
    | [r] =>
      match lhsToResolvables lhs with
      | .error e => .error e
      | .ok leftSide => expressionToMLOG leftSide r options
    | _ => .error (.err "mismatched variable assignment sides")
  else
    assignPairs (lhs.zip rhs) tok options

/-- Plain instruction writing a return value into the canonical return-value slot
(statement.go lines 218-227). -/
def setReturnData (resultVar : Resolvable) : MLOGStatement :=
  .MLOG "Set return data" [[.Value "set", .Value FunctionReturnVariable, resultVar]]

mutual

/-- Lowering of one statement (statement.go statementToMLOG). The argument is optional
because the source passes possibly-nil statement interface values (a for loop's
initializer and post-statement) straight back into this function, where a nil value
falls into the unsupported-statement arm of the type switch. -/
def statementToMLOG (statement : Option Stmt) (options : Options) :
    Except LowerError (List MLOGStatement) :=
  match statement with
  | some (.ForStmt init cond post body) =>
    match body with
    | [] => .ok []
    | b :: bs =>
      Except.bind (statementToMLOG init options) (fun initMlog =>
        Except.bind (forCondCondition cond) (fun condition =>
          Except.bind (blockToMLOG (b :: bs) options) (fun bodyMLOG =>
            Except.bind (statementToMLOG post options) (fun instructions =>
              match bodyMLOG with
              | [] => .error (.runtimePanic "runtime error: index out of range")
              | b0 :: brest =>
                .ok (initMlog ++ (b0 :: brest) ++ instructions ++
                  [.MLOGJump "Jump to start of loop" condition b0])))))
  | some (.ExprStmt x) => expressionToMLOG [] x options
  | some (.IfStmt init cond body els) =>
    Except.bind (ifInitToMLOG init options) (fun initInstructions =>
      Except.bind (lowerIfCond cond options) (fun condPair =>
        Except.bind (blockToMLOG body options) (fun blockInstructions =>
          match blockInstructions with
          | [] => .error (.runtimePanic "runtime error: index out of range")
          | first :: rest =>
            let condJump := MLOGStatement.MLOGJumpTo "Jump to if block if true"
              [.Value "equal", condPair.2, .Value "1"] false first
            match els with
            | none =>
              .ok (initInstructions ++ condPair.1 ++
                [condJump,
                 .MLOGJumpTo "Jump to after if block" [.Value "always"] true
                   ((first :: rest).getLast (List.cons_ne_nil first rest))] ++
                (first :: rest))
            | some e =>
              Except.bind (statementToMLOG (some e) options) (fun elseInstructions =>
                match elseInstructions with
                | [] => .error (.runtimePanic "runtime error: index out of range")
                | e0 :: erest =>
                  let afterElseJump := MLOGStatement.MLOGJumpTo "Jump to after else block"
                    [.Value "always"] true ((e0 :: erest).getLast (List.cons_ne_nil e0 erest))
                  .ok (initInstructions ++ condPair.1 ++
                    [condJump,
                     .MLOGJumpTo "Jump to after if block" [.Value "always"] true afterElseJump] ++
                    (first :: rest) ++ [afterElseJump] ++ (e0 :: erest))))))
  | some (.AssignStmt lhs tok rhs) => assignStmtToMLOG lhs tok rhs options
  | some (.ReturnStmt results) =>
    match results with
    | _ :: _ :: _ => .error (.err "only single value returns are supported")
    | [] => .ok [.MLOGTrampolineBack]
    | [returnValue] =>
      match returnValue with
      | .Ident n => .ok [setReturnData (.NormalVariable n), .MLOGTrampolineBack]
      | .BasicLit v => .ok [setReturnData (.Value v), .MLOGTrampolineBack]
      | _ =>
        match expressionToMLOG [.DynamicVariable] returnValue options with
        | .error e => .error e
        | .ok instructions =>
          .ok (instructions ++ [setReturnData .DynamicVariable, .MLOGTrampolineBack])
  | some (.BlockStmt list) => blockToMLOG list options
  | some (.IncDecStmt x tok) =>
    match x with
    | .Ident n =>
      let name := Resolvable.NormalVariable n
      let op := if tok = .DEC then "sub" else "add"
      .ok [.MLOG "Execute for loop post condition increment/decrement"
        [[.Value "op", .Value op, name, name, .Value "1"]]]
    | _ => .error (.runtimePanic "interface conversion: the operand is not an identifier")
  | some (.GoStmt _) => .error (.err "statement type not supported: *ast.GoStmt")
  | none => .error (.err "statement type not supported: <nil>")
termination_by sizeOf statement

/-- Lowering of an if statement's optional initializer (statement.go lines 99-105): an
absent initializer contributes no instructions; a present one is lowered in place
before the condition. -/
def ifInitToMLOG (init : Option Stmt) (options : Options) : Except LowerError (List MLOGStatement) :=
  match init with
  | some i => statementToMLOG (some i) options
  | none => .ok []
termination_by sizeOf init + 1

/-- Lowering of a block statement's children (statement.go lines 232-241): the
lowering of each child statement, concatenated in order. -/
def blockToMLOG (list : List Stmt) (options : Options) : Except LowerError (List MLOGStatement) :=
  match list with
  | [] => .ok []
  | s :: rest =>
    Except.bind (statementToMLOG (some s) options) (fun instructions =>
      Except.bind (blockToMLOG rest options) (fun restInstructions =>
        .ok (instructions ++ restInstructions)))
termination_by sizeOf list + 1

end

deriving instance DecidableEq for Except

/-- Modelled from the spec: the textual rendering of an operand (the rendering methods
live outside the provided files). Every operand renders to exactly one token string: a
literal renders verbatim, a named variable renders as its name, and a temporary renders
as a generated name. -/
def Resolvable.GetValue : Resolvable → String
  | .Value v => v
  | .NormalVariable n => n
  | .DynamicVariable => "_dynamic0"

/-- Comment annotation of an instruction (the source stores it on the embedded MLOG
value; the trampoline marker's comment lives outside the provided files and is
spec-modelled). -/
def MLOGStatement.GetComment : MLOGStatement → String
  | .MLOG c _ => c
  | .MLOGJump c _ _ => c
  | .MLOGJumpTo c _ _ _ => c
  | .MLOGTrampolineBack => "Trampoline back"

/-- String of the given number of spaces. -/
def spacesStr (n : Nat) : String := String.mk (List.replicate n ' ')

/-- Rendering of a row address as in types.go line 20: the number right-aligned in a
three-character field, followed by a colon and a space. -/
def fmtLineNumber (n : Nat) : String := spacesStr (3 - (toString n).length) ++ toString n ++ ": "

/-- Left-aligned padding of an instruction row to 45 characters as in types.go
line 24. -/
def padComment (s : String) : String := s ++ spacesStr (45 - s.length)

/-- Rendering of one operand row (types.go lines 11-17): operand values joined by
single spaces, skipping the space while the accumulated row is still empty. -/
def lineToString (line : List Resolvable) : String :=
  line.foldl
    (fun resultLine t =>
      if resultLine ≠ "" then resultLine ++ " " ++ t.GetValue else resultLine ++ t.GetValue)
    ""

/-- Rendering of an instruction's rows (types.go MLOGToString): each operand row
becomes one physical output row, optionally prefixed by its address and optionally
suffixed by the instruction's comment, and the address counter advances by one per
row. -/
def MLOGToString (options : Options) (statements : List (List Resolvable))
    (statement : MLOGStatement) (lineNumber : Nat) : String :=
  match statements with
  | [] => ""
  | line :: rest =>
    ((if options.Numbers then fmtLineNumber lineNumber else "") ++
      (if options.Comments then padComment (lineToString line) ++ " // " ++ statement.GetComment
       else lineToString line) ++ "\n") ++
      MLOGToString options rest statement (lineNumber + 1)

/-- Everything of a rendered physical row except the optional address prefix: the row
content, the optional trailing comment, and the newline. -/
def rowBody (options : Options) (statement : MLOGStatement) (line : List Resolvable) : String :=
  (if options.Comments then padComment (lineToString line) ++ " // " ++ statement.GetComment
   else lineToString line) ++ "\n"

/-- Modelled from the spec: the number of physical output rows one instruction
contributes during linearization (the pass lives outside the provided files). A plain
instruction contributes one row per operand row, as its rendering in types.go shows; a
jump and the trampoline marker each contribute a single row. -/
def numRows : MLOGStatement → Nat
  | .MLOG _ rows => rows.length
  | .MLOGJump _ _ _ => 1
  | .MLOGJumpTo _ _ _ _ => 1
  | .MLOGTrampolineBack => 1

/-- Total number of physical rows of an instruction sequence. -/
def totalRows (program : List MLOGStatement) : Nat := (program.map numRows).sum

/-- Modelled from the spec: the address of the first row contributed by a referenced
instruction, scanning the linearized program from the given base address. The source
references target instructions by pointer identity; the shallow embedding approximates
that identity by the first structural occurrence in the program. -/
def firstRowAddress (program : List MLOGStatement) (base : Nat) (s : MLOGStatement) :
    Option Nat :=
  match program with
  | [] => none
  | p :: rest => if p = s then some base else firstRowAddress rest (base + numRows p) s

/-- Modelled from the spec: resolution of a jump's symbolic target to a concrete
address (the linearization pass lives outside the provided files). A target used
directly resolves to the address of its first row; a statement-jump-target resolves to
the referenced instruction's first-row address, or one past its last row when the
after-flag is set. -/
def resolveJump (program : List MLOGStatement) (base : Nat) : MLOGStatement → Option Nat
  | .MLOGJump _ _ target => firstRowAddress program base target
  | .MLOGJumpTo _ _ after target =>
    match firstRowAddress program base target with
    | none => none
    | some a => some (if after then a + numRows target else a)
  | _ => none

/-- Concatenation of a list of strings in order. -/
def concatStrings : List String → String
  | [] => ""
  | s :: rest => s ++ concatStrings rest

/-- The if statement of the spec's no-else example: a bare identifier condition and a
single-assignment body. -/
def ifExampleStmt : Stmt :=
  .IfStmt none (.Ident "x") [.AssignStmt [.Ident "y"] .DEFINE [.BasicLit "1"]] none

/-- The single instruction the example's block lowers to. -/
def ifExampleSet : MLOGStatement :=
  .MLOG "Set the variable to the value" [[.Value "set", .NormalVariable "y", .Value "1"]]

/-- Binding a success value just applies the continuation. -/
@[simp] theorem except_ok_bind {α β ε : Type} (a : α) (f : α → Except ε β) :
    Except.bind (Except.ok a) f = f a := rfl

/-- Binding an error propagates the error unchanged. -/
@[simp] theorem except_error_bind {α β ε : Type} (e : ε) (f : α → Except ε β) :
    Except.bind (Except.error e) f = Except.error e := rfl

/-- Lowering a block equals mapping statement lowering over the children and joining
the results, in the error monad. -/
theorem blockToMLOG_eq_mapM (l : List Stmt) (options : Options) :
    blockToMLOG l options
      = Except.map List.flatten (l.mapM (fun s => statementToMLOG (some s) options)) := by
  induction l with
  | nil =>
    rw [List.mapM_nil]
    simp [blockToMLOG, Except.map, Except.pure, pure]
  | cons s rest ih =>
    rw [List.mapM_cons]
    cases h : statementToMLOG (some s) options with
    | error e =>
      simp [blockToMLOG, h, Except.map, Except.bind, bind]
    | ok i =>
      cases h2 : rest.mapM (fun s => statementToMLOG (some s) options) with
      | error e =>
        rw [h2] at ih
        simp [blockToMLOG, h, ih, Except.map, Except.bind, bind, Except.pure, pure]
      | ok rs =>
        rw [h2] at ih
        simp [blockToMLOG, h, ih, Except.map, Except.bind, bind, Except.pure, pure]

/-- Row count of the empty program. -/
@[simp] theorem totalRows_nil : totalRows [] = 0 := rfl

/-- Row count of a program starting with one instruction. -/
@[simp] theorem totalRows_cons (s : MLOGStatement) (l : List MLOGStatement) :
    totalRows (s :: l) = numRows s + totalRows l := by
  simp [totalRows]

/-- Row counts add up over concatenation. -/
@[simp] theorem totalRows_append (a b : List MLOGStatement) :
    totalRows (a ++ b) = totalRows a + totalRows b := by
  simp [totalRows]

/-- Scanning a program for an instruction that does not occur in a prefix skips the
prefix and advances the base address by the prefix's row count. -/
theorem firstRowAddress_append_of_not_mem (l rest : List MLOGStatement) (base : Nat)
    (s : MLOGStatement) (h : s ∉ l) :
    firstRowAddress (l ++ rest) base s = firstRowAddress rest (base + totalRows l) s := by
  induction l generalizing base with
  | nil => simp [totalRows]
  | cons p l ih =>
    have hps : ¬(p = s) := fun hh => h (hh ▸ List.mem_cons_self p l)
    have hl : s ∉ l := fun hh => h (List.mem_cons_of_mem p hh)
    have harith : base + numRows p + totalRows l = base + totalRows (p :: l) := by
      simp only [totalRows, List.map_cons, List.sum_cons]
      omega
    simp only [List.cons_append, firstRowAddress, if_neg hps, List.append_eq]
    rw [ih _ hl, harith]

/-- C5: a for loop whose body contains zero statements lowers to the empty instruction
sequence, with no instructions emitted for the initializer, condition, or
post-statement, whatever those clauses contain. -/
theorem emptyBodyForLoopLowersToNothing (init : Option Stmt) (cond : Option Expr)
    (post : Option Stmt) (options : Options) :
    statementToMLOG (some (.ForStmt init cond post [])) options = .ok [] := by
  simp [statementToMLOG]

/-- C4: when every child of a block lowers successfully, the block lowers to the
concatenation of the children's lowerings in order; in particular the empty block
lowers to the empty instruction sequence. -/
theorem blockLowersToConcatenation (l : List Stmt) (options : Options)
    (results : List (List MLOGStatement))
    (h : l.mapM (fun s => statementToMLOG (some s) options) = .ok results) :
    statementToMLOG (some (.BlockStmt l)) options = .ok results.flatten := by
  have hb := blockToMLOG_eq_mapM l options
  rw [h] at hb
  simpa [statementToMLOG, Except.map] using hb

/-- Witness for C4 at a concrete two-statement block (and, for the empty-block part,
the empty list). -/
theorem blockLowersToConcatenation_witness :
    ([Stmt.AssignStmt [.Ident "y"] .DEFINE [.BasicLit "1"],
      Stmt.AssignStmt [.Ident "z"] .ASSIGN [.Ident "y"]].mapM
        (fun s => statementToMLOG (some s) ⟨false, false⟩)
      = .ok [[.MLOG "Set the variable to the value" [[.Value "set", .NormalVariable "y", .Value "1"]]],
             [.MLOG "Set the variable to the value" [[.Value "set", .NormalVariable "z", .NormalVariable "y"]]]])
    ∧ statementToMLOG
        (some (.BlockStmt [Stmt.AssignStmt [.Ident "y"] .DEFINE [.BasicLit "1"],
                           Stmt.AssignStmt [.Ident "z"] .ASSIGN [.Ident "y"]])) ⟨false, false⟩
      = .ok (List.flatten
          [[.MLOG "Set the variable to the value" [[.Value "set", .NormalVariable "y", .Value "1"]]],
           [.MLOG "Set the variable to the value" [[.Value "set", .NormalVariable "z", .NormalVariable "y"]]]])
    ∧ statementToMLOG (some (.BlockStmt [])) ⟨false, false⟩ = .ok (List.flatten []) := by
  have hmap : [Stmt.AssignStmt [.Ident "y"] .DEFINE [.BasicLit "1"],
      Stmt.AssignStmt [.Ident "z"] .ASSIGN [.Ident "y"]].mapM
        (fun s => statementToMLOG (some s) (⟨false, false⟩ : Options))
      = .ok [[.MLOG "Set the variable to the value" [[.Value "set", .NormalVariable "y", .Value "1"]]],
             [.MLOG "Set the variable to the value" [[.Value "set", .NormalVariable "z", .NormalVariable "y"]]]] := by
    rw [List.mapM_cons, List.mapM_cons, List.mapM_nil]
    simp [statementToMLOG, assignStmtToMLOG, assignPairs, expressionToMLOG, Except.bind, bind,
      Except.pure, pure]
  exact ⟨hmap,
    blockLowersToConcatenation _ _ _ hmap,
    blockLowersToConcatenation [] ⟨false, false⟩ [] (by rw [List.mapM_nil]; rfl)⟩

/-- C6: a return statement with more than one result is rejected with an error, and
every successful lowering of a return statement ends in the trampoline marker, whether
or not a value is returned. -/
theorem returnLoweringContract (results : List Expr) (options : Options) :
    (1 < results.length →
      statementToMLOG (some (.ReturnStmt results)) options
        = .error (.err "only single value returns are supported"))
    ∧ (∀ out, statementToMLOG (some (.ReturnStmt results)) options = .ok out →
        out.getLast? = some .MLOGTrampolineBack) := by
  constructor
  · intro h
    match results with
    | [] => simp at h
    | [r] => simp at h
    | r1 :: r2 :: rest => simp [statementToMLOG]
  · intro out hout
    match results with
    | [] =>
      simp [statementToMLOG] at hout
      subst hout
      rfl
    | [r] =>
      match r with
      | .Ident n =>
        simp [statementToMLOG] at hout
        subst hout
        rfl
      | .BasicLit v =>
        simp [statementToMLOG] at hout
        subst hout
        rfl
      | .BinaryExpr a op b =>
        cases hE : expressionToMLOG [.DynamicVariable] (.BinaryExpr a op b) options with
        | error e => simp [statementToMLOG, hE] at hout
        | ok instructions =>
          simp [statementToMLOG, hE] at hout
          subst hout
          have hsplit : instructions ++ [setReturnData .DynamicVariable, MLOGStatement.MLOGTrampolineBack]
              = (instructions ++ [setReturnData .DynamicVariable]) ++ [MLOGStatement.MLOGTrampolineBack] := by
            simp
          rw [hsplit, List.getLast?_concat]
      | .IndexExpr a b =>
        cases hE : expressionToMLOG [.DynamicVariable] (.IndexExpr a b) options with
        | error e => simp [statementToMLOG, hE] at hout
        | ok instructions =>
          simp [statementToMLOG, hE] at hout
          subst hout
          have hsplit : instructions ++ [setReturnData .DynamicVariable, MLOGStatement.MLOGTrampolineBack]
              = (instructions ++ [setReturnData .DynamicVariable]) ++ [MLOGStatement.MLOGTrampolineBack] := by
            simp
          rw [hsplit, List.getLast?_concat]
    | r1 :: r2 :: rest =>
      simp [statementToMLOG] at hout

/-- C1: a for loop with a non-empty body, an initializer, a post-statement, and a
binary condition whose operator is in the jump-operator table and whose operands are
each a literal or a bare identifier lowers to the initializer's instructions, then the
body's, then the post-statement's, followed by exactly one conditional backward jump
whose condition is the table-translated operator applied to the same two operands and
whose symbolic target is the first instruction of the lowered body, so the body runs
once before the condition is first evaluated. -/
theorem forLoopLowersToDoCheckAfter
    (initS postS : Stmt) (x y : Expr) (op : Token) (b : Stmt) (bs : List Stmt)
    (options : Options) (translatedOp : String) (leftSide rightSide : Resolvable)
    (initI postI : List MLOGStatement) (b0 : MLOGStatement) (brest : List MLOGStatement)
    (hop : jumpOperators op = some translatedOp)
    (hleft : condOperand x "unknown left side expression type" = .ok leftSide)
    (hright : condOperand y "unknown right side expression type" = .ok rightSide)
    (hinit : statementToMLOG (some initS) options = .ok initI)
    (hbody : blockToMLOG (b :: bs) options = .ok (b0 :: brest))
    (hpost : statementToMLOG (some postS) options = .ok postI) :
    statementToMLOG
        (some (.ForStmt (some initS) (some (.BinaryExpr x op y)) (some postS) (b :: bs)))
        options
      = .ok (initI ++ (b0 :: brest) ++ postI ++
          [.MLOGJump "Jump to start of loop" [.Value translatedOp, leftSide, rightSide] b0]) := by
  simp [statementToMLOG, forCondCondition, hop, hleft, hright, hinit, hbody, hpost]

/-- Witness for C1 on a concrete loop with initializer, literal-bound condition, and
increment post-statement. -/
theorem forLoopLowersToDoCheckAfter_witness :
    jumpOperators .LSS = some "lessThan"
    ∧ statementToMLOG
        (some (.ForStmt (some (.AssignStmt [.Ident "i"] .DEFINE [.BasicLit "0"]))
          (some (.BinaryExpr (.Ident "i") .LSS (.BasicLit "10")))
          (some (.IncDecStmt (.Ident "i") .INC))
          [.AssignStmt [.Ident "x"] .ASSIGN [.BasicLit "1"]])) ⟨false, false⟩
      = .ok [.MLOG "Set the variable to the value"
               [[.Value "set", .NormalVariable "i", .Value "0"]],
             .MLOG "Set the variable to the value"
               [[.Value "set", .NormalVariable "x", .Value "1"]],
             .MLOG "Execute for loop post condition increment/decrement"
               [[.Value "op", .Value "add", .NormalVariable "i", .NormalVariable "i", .Value "1"]],
             .MLOGJump "Jump to start of loop"
               [.Value "lessThan", .NormalVariable "i", .Value "10"]
               (.MLOG "Set the variable to the value"
                 [[.Value "set", .NormalVariable "x", .Value "1"]])] := by
  have h1 : statementToMLOG (some (.AssignStmt [.Ident "i"] .DEFINE [.BasicLit "0"]))
      (⟨false, false⟩ : Options)
      = .ok [.MLOG "Set the variable to the value"
          [[.Value "set", .NormalVariable "i", .Value "0"]]] := by
    simp [statementToMLOG, assignStmtToMLOG, assignPairs, expressionToMLOG]
  have h2 : blockToMLOG [.AssignStmt [.Ident "x"] .ASSIGN [.BasicLit "1"]]
      (⟨false, false⟩ : Options)
      = .ok [.MLOG "Set the variable to the value"
          [[.Value "set", .NormalVariable "x", .Value "1"]]] := by
    simp [blockToMLOG, statementToMLOG, assignStmtToMLOG, assignPairs, expressionToMLOG]
  have h3 : statementToMLOG (some (.IncDecStmt (.Ident "i") .INC)) (⟨false, false⟩ : Options)
      = .ok [.MLOG "Execute for loop post condition increment/decrement"
          [[.Value "op", .Value "add", .NormalVariable "i", .NormalVariable "i", .Value "1"]]] := by
    simp [statementToMLOG]
  exact ⟨rfl,
    forLoopLowersToDoCheckAfter
      (.AssignStmt [.Ident "i"] .DEFINE [.BasicLit "0"])
      (.IncDecStmt (.Ident "i") .INC)
      (.Ident "i") (.BasicLit "10") .LSS
      (.AssignStmt [.Ident "x"] .ASSIGN [.BasicLit "1"]) []
      ⟨false, false⟩ "lessThan" (.NormalVariable "i") (.Value "10")
      [.MLOG "Set the variable to the value" [[.Value "set", .NormalVariable "i", .Value "0"]]]
      [.MLOG "Execute for loop post condition increment/decrement"
        [[.Value "op", .Value "add", .NormalVariable "i", .NormalVariable "i", .Value "1"]]]
      (.MLOG "Set the variable to the value" [[.Value "set", .NormalVariable "x", .Value "1"]])
      []
      rfl rfl rfl h1 h2 h3⟩

/-- C2 counterexample: lowering the no-else example produces three physical output
rows, not the four the claim states. -/
theorem ifNoElseFourRowsCounterexample :
    Except.map totalRows (statementToMLOG (some ifExampleStmt) ⟨false, false⟩) = .ok 3 := by
  have h : statementToMLOG (some ifExampleStmt) ⟨false, false⟩
      = .ok [.MLOGJumpTo "Jump to if block if true"
               [.Value "equal", .NormalVariable "x", .Value "1"] false ifExampleSet,
             .MLOGJumpTo "Jump to after if block" [.Value "always"] true ifExampleSet,
             ifExampleSet] := by
    simp [ifExampleStmt, ifExampleSet, statementToMLOG, blockToMLOG, assignStmtToMLOG,
      assignPairs, expressionToMLOG, lowerIfCond, ifInitToMLOG]
  rw [h]
  rfl

/-- C2 amended: the no-else example lowers to exactly three output rows in the order
conditional jump into the block, unconditional skip jump, block instruction, and the
skip jump's target resolves to the address immediately after the block's instruction. -/
theorem ifNoElseLowersToThreeRows (base : Nat) :
    statementToMLOG (some ifExampleStmt) ⟨false, false⟩
      = .ok [.MLOGJumpTo "Jump to if block if true"
               [.Value "equal", .NormalVariable "x", .Value "1"] false ifExampleSet,
             .MLOGJumpTo "Jump to after if block" [.Value "always"] true ifExampleSet,
             ifExampleSet]
    ∧ totalRows [.MLOGJumpTo "Jump to if block if true"
                   [.Value "equal", .NormalVariable "x", .Value "1"] false ifExampleSet,
                 .MLOGJumpTo "Jump to after if block" [.Value "always"] true ifExampleSet,
                 ifExampleSet] = 3
    ∧ resolveJump [.MLOGJumpTo "Jump to if block if true"
                     [.Value "equal", .NormalVariable "x", .Value "1"] false ifExampleSet,
                   .MLOGJumpTo "Jump to after if block" [.Value "always"] true ifExampleSet,
                   ifExampleSet] base
        (.MLOGJumpTo "Jump to after if block" [.Value "always"] true ifExampleSet)
      = some (base + 3) := by
  refine ⟨?_, rfl, ?_⟩
  · simp [ifExampleStmt, ifExampleSet, statementToMLOG, blockToMLOG, assignStmtToMLOG,
      assignPairs, expressionToMLOG, lowerIfCond, ifInitToMLOG]
  · have h1 : (MLOGStatement.MLOGJumpTo "Jump to if block if true"
        [.Value "equal", .NormalVariable "x", .Value "1"] false ifExampleSet) ≠ ifExampleSet := by
      decide
    have h2 : (MLOGStatement.MLOGJumpTo "Jump to after if block" [.Value "always"] true
        ifExampleSet) ≠ ifExampleSet := by
      decide
    simp [resolveJump, firstRowAddress, numRows, h1, h2, ifExampleSet]

/-- C7 evaluation: an increment of a bare identifier lowers to the single arithmetic
instruction adding one, but an increment whose operand is not a bare identifier makes
the lowering panic on an unchecked type assertion instead of reporting a lowering
error. -/
theorem incDecNonIdentOperandPanics :
    statementToMLOG (some (.IncDecStmt (.IndexExpr (.Ident "a") (.BasicLit "0")) .INC))
        ⟨false, false⟩
      = .error (.runtimePanic "interface conversion: the operand is not an identifier")
    ∧ statementToMLOG (some (.IncDecStmt (.Ident "i") .INC)) ⟨false, false⟩
      = .ok [.MLOG "Execute for loop post condition increment/decrement"
          [[.Value "op", .Value "add", .NormalVariable "i", .NormalVariable "i", .Value "1"]]]
    ∧ statementToMLOG (some (.IncDecStmt (.Ident "i") .DEC)) ⟨false, false⟩
      = .ok [.MLOG "Execute for loop post condition increment/decrement"
          [[.Value "op", .Value "sub", .NormalVariable "i", .NormalVariable "i", .Value "1"]]] := by
  refine ⟨?_, ?_, ?_⟩ <;> simp [statementToMLOG]

/-- C8 evaluation: in the N-to-one assignment shape a non-identifier destination makes
the lowering panic on an unchecked type assertion instead of returning an error, while
the N-to-N shape rejects a non-identifier destination with an error and any other
count mismatch is rejected with the mismatched-sides error. -/
theorem assignNToOneNonIdentDestinationPanics :
    assignStmtToMLOG [.Ident "a", .IndexExpr (.Ident "b") (.BasicLit "0")] .ASSIGN [.Ident "c"]
        ⟨false, false⟩
      = .error (.runtimePanic "interface conversion: the assignment target is not an identifier")
    ∧ assignStmtToMLOG [.IndexExpr (.Ident "b") (.BasicLit "0")] .ASSIGN [.Ident "c"]
        ⟨false, false⟩
      = .error (.err "left side variable assignment can only contain identifications")
    ∧ assignStmtToMLOG [.Ident "a", .Ident "b"] .ASSIGN [.Ident "c", .Ident "d", .Ident "e"]
        ⟨false, false⟩
      = .error (.err "mismatched variable assignment sides") := by
  refine ⟨rfl, rfl, rfl⟩

/-- C10 counterexample: a for loop with a non-empty body whose post-statement clause is
absent but whose condition is a bare literal fails with the binary-condition error, not
with the unsupported-statement error the claim states. -/
theorem forLoopMissingPostCounterexample :
    statementToMLOG
        (some (.ForStmt (some (.AssignStmt [.Ident "i"] .DEFINE [.BasicLit "0"]))
          (some (.BasicLit "1")) none [.IncDecStmt (.Ident "i") .INC])) ⟨false, false⟩
      = .error (.err "for loop can only have binary conditional expressions") := by
  simp [statementToMLOG, assignStmtToMLOG, assignPairs, expressionToMLOG, forCondCondition]

/-- C10 amended: a for loop with a non-empty body and an absent initializer always
fails with the unsupported-statement error, and one with an absent post-statement fails
the same way provided its initializer, condition, and body themselves lower
successfully — the absent clause is passed to statement lowering and falls into the
unsupported-statement arm. -/
theorem forLoopMissingClauseFails
    (cond : Option Expr) (post : Option Stmt) (b : Stmt) (bs : List Stmt) (options : Options) :
    statementToMLOG (some (.ForStmt none cond post (b :: bs))) options
        = .error (.err "statement type not supported: <nil>")
    ∧ (∀ (initS : Stmt) (initI : List MLOGStatement) (condition : List Resolvable)
          (bodyI : List MLOGStatement),
        statementToMLOG (some initS) options = .ok initI →
        forCondCondition cond = .ok condition →
        blockToMLOG (b :: bs) options = .ok bodyI →
        statementToMLOG (some (.ForStmt (some initS) cond none (b :: bs))) options
          = .error (.err "statement type not supported: <nil>")) := by
  constructor
  · simp [statementToMLOG]
  · intro initS initI condition bodyI h1 h2 h3
    simp [statementToMLOG, h1, h2, h3]

/-- Witness for C10 amended at a concrete while-style loop (absent initializer) and a
concrete loop with an absent post-statement whose other clauses lower successfully. -/
theorem forLoopMissingClauseFails_witness :
    statementToMLOG
        (some (.ForStmt none (some (.BinaryExpr (.Ident "i") .LSS (.BasicLit "2"))) none
          [.IncDecStmt (.Ident "i") .INC])) ⟨false, false⟩
      = .error (.err "statement type not supported: <nil>")
    ∧ statementToMLOG
        (some (.ForStmt (some (.AssignStmt [.Ident "i"] .DEFINE [.BasicLit "0"]))
          (some (.BinaryExpr (.Ident "i") .LSS (.BasicLit "2"))) none
          [.IncDecStmt (.Ident "i") .INC])) ⟨false, false⟩
      = .error (.err "statement type not supported: <nil>") := by
  have h1 : statementToMLOG (some (.AssignStmt [.Ident "i"] .DEFINE [.BasicLit "0"]))
      (⟨false, false⟩ : Options)
      = .ok [.MLOG "Set the variable to the value"
          [[.Value "set", .NormalVariable "i", .Value "0"]]] := by
    simp [statementToMLOG, assignStmtToMLOG, assignPairs, expressionToMLOG]
  have h2 : forCondCondition (some (.BinaryExpr (.Ident "i") .LSS (.BasicLit "2")))
      = .ok [.Value "lessThan", .NormalVariable "i", .Value "2"] := rfl
  have h3 : blockToMLOG [.IncDecStmt (.Ident "i") .INC] (⟨false, false⟩ : Options)
      = .ok [.MLOG "Execute for loop post condition increment/decrement"
          [[.Value "op", .Value "add", .NormalVariable "i", .NormalVariable "i", .Value "1"]]] := by
    simp [blockToMLOG, statementToMLOG]
  exact ⟨(forLoopMissingClauseFails (some (.BinaryExpr (.Ident "i") .LSS (.BasicLit "2"))) none
      (.IncDecStmt (.Ident "i") .INC) [] ⟨false, false⟩).1,
    (forLoopMissingClauseFails (some (.BinaryExpr (.Ident "i") .LSS (.BasicLit "2"))) none
      (.IncDecStmt (.Ident "i") .INC) [] ⟨false, false⟩).2
      (.AssignStmt [.Ident "i"] .DEFINE [.BasicLit "0"])
      [.MLOG "Set the variable to the value" [[.Value "set", .NormalVariable "i", .Value "0"]]]
      [.Value "lessThan", .NormalVariable "i", .Value "2"]
      [.MLOG "Execute for loop post condition increment/decrement"
        [[.Value "op", .Value "add", .NormalVariable "i", .NormalVariable "i", .Value "1"]]]
      h1 h2 h3⟩

/-- Witness for C6: a two-value return is rejected, and concrete single-value and
bare returns end in the trampoline marker. -/
theorem returnLoweringContract_witness :
    statementToMLOG (some (.ReturnStmt [.BasicLit "1", .BasicLit "2"])) ⟨false, false⟩
        = .error (.err "only single value returns are supported")
    ∧ List.getLast? [setReturnData (.Value "5"), .MLOGTrampolineBack]
        = some .MLOGTrampolineBack
    ∧ List.getLast? [MLOGStatement.MLOGTrampolineBack] = some .MLOGTrampolineBack := by
  refine ⟨(returnLoweringContract [.BasicLit "1", .BasicLit "2"] ⟨false, false⟩).1 (by decide),
    (returnLoweringContract [.BasicLit "5"] ⟨false, false⟩).2
      [setReturnData (.Value "5"), .MLOGTrampolineBack] (by simp [statementToMLOG]),
    (returnLoweringContract [] ⟨false, false⟩).2 [MLOGStatement.MLOGTrampolineBack]
      (by simp [statementToMLOG])⟩

/-- C3: an if statement with an else branch, both branches lowering to at least one
instruction, emits in order the conditional jump to the first then-instruction, the
skip jump, the then-block, an unconditional jump targeting the position after the else
block's last instruction, and the else-block; the skip jump is retargeted at that new
unconditional jump with its after-flag still set, so a false condition transfers
control to the first address of the else block, skipping the jump that sits just
before it, while a true condition enters the then-block, after which the new
unconditional jump carries control over all of the else-block. -/
theorem ifElseLoweringShape
    (init : Option Stmt) (cond : Expr) (body : List Stmt) (els : Stmt) (options : Options)
    (initI condI : List MLOGStatement) (condVar : Resolvable)
    (t0 : MLOGStatement) (trest : List MLOGStatement)
    (e0 : MLOGStatement) (erest : List MLOGStatement) (eLast : MLOGStatement)
    (hinit : ifInitToMLOG init options = .ok initI)
    (hcond : lowerIfCond cond options = .ok (condI, condVar))
    (hthen : blockToMLOG body options = .ok (t0 :: trest))
    (helse : statementToMLOG (some els) options = .ok (e0 :: erest))
    (heLast : (e0 :: erest).getLast (List.cons_ne_nil e0 erest) = eLast) :
    statementToMLOG (some (.IfStmt init cond body (some els))) options
      = .ok (initI ++ condI ++
          [.MLOGJumpTo "Jump to if block if true" [.Value "equal", condVar, .Value "1"] false t0,
           .MLOGJumpTo "Jump to after if block" [.Value "always"] true
             (.MLOGJumpTo "Jump to after else block" [.Value "always"] true eLast)] ++
          (t0 :: trest) ++
          [.MLOGJumpTo "Jump to after else block" [.Value "always"] true eLast] ++
          (e0 :: erest))
    ∧ (∀ base : Nat,
        (MLOGStatement.MLOGJumpTo "Jump to after else block" [.Value "always"] true eLast)
            ∉ initI ++ condI ++ (t0 :: trest) →
        resolveJump
          (initI ++ condI ++
            [.MLOGJumpTo "Jump to if block if true" [.Value "equal", condVar, .Value "1"] false t0,
             .MLOGJumpTo "Jump to after if block" [.Value "always"] true
               (.MLOGJumpTo "Jump to after else block" [.Value "always"] true eLast)] ++
            (t0 :: trest) ++
            [.MLOGJumpTo "Jump to after else block" [.Value "always"] true eLast] ++
            (e0 :: erest))
          base
          (.MLOGJumpTo "Jump to after if block" [.Value "always"] true
            (.MLOGJumpTo "Jump to after else block" [.Value "always"] true eLast))
          = some (base + totalRows initI + totalRows condI + 2 + totalRows (t0 :: trest) + 1)) := by
  constructor
  · simp [statementToMLOG, hinit, hcond, hthen, helse, heLast]
  · intro base hfresh
    have hAc : MLOGStatement.MLOGJumpTo "Jump to after else block" [.Value "always"] true eLast
        ≠ MLOGStatement.MLOGJumpTo "Jump to if block if true"
            [.Value "equal", condVar, .Value "1"] false t0 := by
      intro hh
      injection hh with hc hrest1 hrest2 hrest3
      exact absurd hc (by decide)
    have hAs : MLOGStatement.MLOGJumpTo "Jump to after else block" [.Value "always"] true eLast
        ≠ MLOGStatement.MLOGJumpTo "Jump to after if block" [.Value "always"] true
            (MLOGStatement.MLOGJumpTo "Jump to after else block" [.Value "always"] true eLast) := by
      intro hh
      injection hh with hc hrest1 hrest2 hrest3
      exact absurd hc (by decide)
    have hnot : MLOGStatement.MLOGJumpTo "Jump to after else block" [.Value "always"] true eLast
        ∉ (initI ++ (condI ++
            (MLOGStatement.MLOGJumpTo "Jump to if block if true"
                [.Value "equal", condVar, .Value "1"] false t0 ::
             MLOGStatement.MLOGJumpTo "Jump to after if block" [.Value "always"] true
                (MLOGStatement.MLOGJumpTo "Jump to after else block" [.Value "always"] true eLast) ::
             (t0 :: trest)))) := by
      intro hmem
      simp only [List.mem_append, List.mem_cons] at hmem
      rcases hmem with h | h | h | h | h | h
      · exact hfresh (List.mem_append_left _ (List.mem_append_left _ h))
      · exact hfresh (List.mem_append_left _ (List.mem_append_right _ h))
      · exact hAc h
      · exact hAs h
      · subst h
        exact hfresh (List.mem_append_right _ (List.mem_cons_self _ _))
      · exact hfresh (List.mem_append_right _ (List.mem_cons_of_mem _ h))
    have hsplit : initI ++ condI ++
          [MLOGStatement.MLOGJumpTo "Jump to if block if true"
             [.Value "equal", condVar, .Value "1"] false t0,
           MLOGStatement.MLOGJumpTo "Jump to after if block" [.Value "always"] true
             (MLOGStatement.MLOGJumpTo "Jump to after else block" [.Value "always"] true eLast)] ++
          (t0 :: trest) ++
          [MLOGStatement.MLOGJumpTo "Jump to after else block" [.Value "always"] true eLast] ++
          (e0 :: erest)
        = (initI ++ (condI ++
            (MLOGStatement.MLOGJumpTo "Jump to if block if true"
                [.Value "equal", condVar, .Value "1"] false t0 ::
             MLOGStatement.MLOGJumpTo "Jump to after if block" [.Value "always"] true
                (MLOGStatement.MLOGJumpTo "Jump to after else block" [.Value "always"] true eLast) ::
             (t0 :: trest)))) ++
          (MLOGStatement.MLOGJumpTo "Jump to after else block" [.Value "always"] true eLast ::
            (e0 :: erest)) := by
      simp [List.append_assoc]
    simp only [resolveJump, hsplit]
    rw [firstRowAddress_append_of_not_mem _ _ _ _ hnot]
    simp only [firstRowAddress, if_pos rfl]
    simp [numRows, totalRows_append, totalRows_cons]
    omega

/-- Witness for C3 on a concrete if statement with else: then-block assigning y,
else-block assigning z. -/
theorem ifElseLoweringShape_witness :
    statementToMLOG
        (some (.IfStmt none (.Ident "c") [.AssignStmt [.Ident "y"] .ASSIGN [.BasicLit "1"]]
          (some (.BlockStmt [.AssignStmt [.Ident "z"] .ASSIGN [.BasicLit "2"]])))) ⟨false, false⟩
      = .ok [.MLOGJumpTo "Jump to if block if true"
               [.Value "equal", .NormalVariable "c", .Value "1"] false
               (.MLOG "Set the variable to the value"
                 [[.Value "set", .NormalVariable "y", .Value "1"]]),
             .MLOGJumpTo "Jump to after if block" [.Value "always"] true
               (.MLOGJumpTo "Jump to after else block" [.Value "always"] true
                 (.MLOG "Set the variable to the value"
                   [[.Value "set", .NormalVariable "z", .Value "2"]])),
             .MLOG "Set the variable to the value"
               [[.Value "set", .NormalVariable "y", .Value "1"]],
             .MLOGJumpTo "Jump to after else block" [.Value "always"] true
               (.MLOG "Set the variable to the value"
                 [[.Value "set", .NormalVariable "z", .Value "2"]]),
             .MLOG "Set the variable to the value"
               [[.Value "set", .NormalVariable "z", .Value "2"]]]
    ∧ resolveJump
        [.MLOGJumpTo "Jump to if block if true"
           [.Value "equal", .NormalVariable "c", .Value "1"] false
           (.MLOG "Set the variable to the value"
             [[.Value "set", .NormalVariable "y", .Value "1"]]),
         .MLOGJumpTo "Jump to after if block" [.Value "always"] true
           (.MLOGJumpTo "Jump to after else block" [.Value "always"] true
             (.MLOG "Set the variable to the value"
               [[.Value "set", .NormalVariable "z", .Value "2"]])),
         .MLOG "Set the variable to the value" [[.Value "set", .NormalVariable "y", .Value "1"]],
         .MLOGJumpTo "Jump to after else block" [.Value "always"] true
           (.MLOG "Set the variable to the value"
             [[.Value "set", .NormalVariable "z", .Value "2"]]),
         .MLOG "Set the variable to the value" [[.Value "set", .NormalVariable "z", .Value "2"]]]
        0
        (.MLOGJumpTo "Jump to after if block" [.Value "always"] true
          (.MLOGJumpTo "Jump to after else block" [.Value "always"] true
            (.MLOG "Set the variable to the value"
              [[.Value "set", .NormalVariable "z", .Value "2"]])))
      = some 4 := by
  have h := ifElseLoweringShape none (.Ident "c")
    [.AssignStmt [.Ident "y"] .ASSIGN [.BasicLit "1"]]
    (.BlockStmt [.AssignStmt [.Ident "z"] .ASSIGN [.BasicLit "2"]])
    ⟨false, false⟩ [] [] (.NormalVariable "c")
    (.MLOG "Set the variable to the value" [[.Value "set", .NormalVariable "y", .Value "1"]]) []
    (.MLOG "Set the variable to the value" [[.Value "set", .NormalVariable "z", .Value "2"]]) []
    (.MLOG "Set the variable to the value" [[.Value "set", .NormalVariable "z", .Value "2"]])
    (by simp [ifInitToMLOG]) rfl
    (by simp [blockToMLOG, statementToMLOG, assignStmtToMLOG, assignPairs, expressionToMLOG])
    (by simp [statementToMLOG, blockToMLOG, assignStmtToMLOG, assignPairs, expressionToMLOG])
    rfl
  exact ⟨h.1, h.2 0 (by decide)⟩

/-- C9: with the show-addresses toggle on, rendering prefixes each physical output row
with an address, and the printed addresses increase by exactly one per physical row,
starting at the configured base address. -/
theorem renderingAddressesIncreaseByOne (options : Options) (statements : List (List Resolvable))
    (statement : MLOGStatement) (base : Nat) (h : options.Numbers = true) :
    MLOGToString options statements statement base
      = concatStrings ((List.enumFrom base statements).map
          (fun p => fmtLineNumber p.1 ++ rowBody options statement p.2))
    ∧ (List.enumFrom base statements).map Prod.fst = List.range' base statements.length := by
  constructor
  · induction statements generalizing base with
    | nil => simp [MLOGToString, List.enumFrom, concatStrings]
    | cons line rest ih =>
      simp [MLOGToString, List.enumFrom, concatStrings, h, rowBody, ih, String.append_assoc]
  · induction statements generalizing base with
    | nil => simp [List.enumFrom, List.range']
    | cons line rest ih => simp [List.enumFrom, List.range', ih]

/-- Witness for C9 on a two-row instruction rendered from base address 5. -/
theorem renderingAddressesIncreaseByOne_witness :
    (⟨true, false⟩ : Options).Numbers = true
    ∧ MLOGToString ⟨true, false⟩
        [[Resolvable.Value "set", .NormalVariable "x", .Value "1"], [Resolvable.Value "end"]]
        .MLOGTrampolineBack 5
      = concatStrings ((List.enumFrom 5
          [[Resolvable.Value "set", .NormalVariable "x", .Value "1"], [Resolvable.Value "end"]]).map
          (fun p => fmtLineNumber p.1 ++ rowBody ⟨true, false⟩ .MLOGTrampolineBack p.2))
    ∧ (List.enumFrom 5
        [[Resolvable.Value "set", .NormalVariable "x", .Value "1"], [Resolvable.Value "end"]]).map
        Prod.fst
      = List.range' 5 2 := by
  have h := renderingAddressesIncreaseByOne ⟨true, false⟩
    [[Resolvable.Value "set", .NormalVariable "x", .Value "1"], [Resolvable.Value "end"]]
    .MLOGTrampolineBack 5 rfl
  exact ⟨rfl, h.1, h.2⟩

end GoMlog
